import Mathlib

/-!
Verification of the Observe Azure blob-trigger ingestion pipeline
(function_app.py).  The file shallowly embeds the pipeline: JSON values,
the Python library operations the code relies on (json.dumps, json.loads,
str.strip, str.splitlines), the four format handlers, the batching loop
of batch_and_send_to_observe, send_batch, and the blob_trigger entry
point.  External collaborators (gzip, requests, xmltodict, the blob read)
are parameters of the definitions that use them.  Theorems about the
frozen claims follow the definitions.
-/

/-- Observe pre-compression per-batch ceiling, 4 MiB (function_app.py line 12). -/
def MAX_UNCOMPRESSED_SIZE : Nat := 4 * 1024 * 1024

/-- Observe post-compression per-batch ceiling, 10 MiB (function_app.py line 13). -/
def MAX_COMPRESSED_SIZE : Nat := 10 * 1024 * 1024

/-- JSON-compatible values, the Record type of the pipeline.  Numeric
literals are carried as their raw token text: no claim compares distinct
spellings of one number, so this loses nothing while keeping every
definition executable. -/
inductive JValue where
  | jnull : JValue
  | jbool : Bool → JValue
  | jnum : String → JValue
  | jstr : String → JValue
  | jarr : List JValue → JValue
  | jobj : List (String × JValue) → JValue

/-- Opening curly brace character. -/
def openBraceChar : Char := Char.ofNat 123

/-- Closing curly brace character. -/
def closeBraceChar : Char := Char.ofNat 125

/-- Lowercase hexadecimal digit for a value below 16. -/
def hexLowerChar (n : Nat) : Char :=
  if n < 10 then Char.ofNat (48 + n) else Char.ofNat (87 + n)

/-- Four lowercase hex digits of a code point below 65536. -/
def hex4 (n : Nat) : List Char :=
  [hexLowerChar (n / 4096 % 16), hexLowerChar (n / 256 % 16),
   hexLowerChar (n / 16 % 16), hexLowerChar (n % 16)]

/-- Escape one character the way Python json.dumps (ensure_ascii=True,
its default) does: double quote, backslash and the usual control
shorthands get two-character escapes, other characters outside the
printable ASCII range 0x20..0x7e become backslash-u sequences (surrogate
pairs above 0xffff). -/
def escCharJson (c : Char) : List Char :=
  if c = '"' then ['\\', '"']
  else if c = '\\' then ['\\', '\\']
  else if c.toNat = 10 then ['\\', 'n']
  else if c.toNat = 13 then ['\\', 'r']
  else if c.toNat = 9 then ['\\', 't']
  else if c.toNat = 8 then ['\\', 'b']
  else if c.toNat = 12 then ['\\', 'f']
  else if c.toNat < 32 then '\\' :: 'u' :: hex4 c.toNat
  else if c.toNat < 127 then [c]
  else if c.toNat < 65536 then '\\' :: 'u' :: hex4 c.toNat
  else
    ('\\' :: 'u' :: hex4 (55296 + (c.toNat - 65536) / 1024)) ++
      ('\\' :: 'u' :: hex4 (56320 + (c.toNat - 65536) % 1024))

/-- Escape a whole string for json.dumps. -/
def escStringJson (s : String) : String := String.mk ((s.data.map escCharJson).flatten)

mutual

/-- Models Python json.dumps with its default separators (", " between
items, ": " between a key and its value) and default ensure_ascii
escaping, as used at lines 112 and 132 of function_app.py.  A raw
numeric token serializes as itself. -/
def json_dumps : JValue → String
  | JValue.jnull => "null"
  | JValue.jbool true => "true"
  | JValue.jbool false => "false"
  | JValue.jnum raw => raw
  | JValue.jstr s => "\"" ++ escStringJson s ++ "\""
  | JValue.jarr xs => "[" ++ dumpsElems xs ++ "]"
  | JValue.jobj fs => String.mk [openBraceChar] ++ dumpsFields fs ++ String.mk [closeBraceChar]

/-- Comma-separated serialization of array elements. -/
def dumpsElems : List JValue → String
  | [] => ""
  | [x] => json_dumps x
  | x :: y :: xs => json_dumps x ++ ", " ++ dumpsElems (y :: xs)

/-- Comma-separated serialization of object fields. -/
def dumpsFields : List (String × JValue) → String
  | [] => ""
  | [(k, v)] => "\"" ++ escStringJson k ++ "\": " ++ json_dumps v
  | (k, v) :: g :: fs =>
      "\"" ++ escStringJson k ++ "\": " ++ json_dumps v ++ ", " ++ dumpsFields (g :: fs)

end

/-- Number of bytes of the UTF-8 encoding of one character (Char is a
unicode scalar value, so the four ranges below are exhaustive). -/
def charUtf8Len (c : Char) : Nat :=
  if c.toNat < 128 then 1
  else if c.toNat < 2048 then 2
  else if c.toNat < 65536 then 3
  else 4

/-- Byte length of s.encode("utf-8"). -/
def utf8Len (s : String) : Nat := (s.data.map charUtf8Len).sum

/-- The per-record size the batcher measures at line 113:
len(json.dumps(observation).encode("utf-8")). -/
def recordSize (v : JValue) : Nat := utf8Len (json_dumps v)

/-- Code points for which Python str.isspace() is true; str.strip() with
no argument drops exactly these at both ends. -/
def pySpaceCodes : List Nat :=
  [9, 10, 11, 12, 13, 28, 29, 30, 31, 32, 133, 160, 5760,
   8192, 8193, 8194, 8195, 8196, 8197, 8198, 8199, 8200, 8201, 8202,
   8232, 8233, 8239, 8287, 12288]

/-- Python whitespace test for one character. -/
def isPySpace (c : Char) : Bool := pySpaceCodes.contains c.toNat

/-- Code points Python str.splitlines() treats as line boundaries. -/
def lineBoundaryCodes : List Nat := [10, 11, 12, 13, 28, 29, 30, 133, 8232, 8233]

/-- Line-boundary test for one character. -/
def isLineBoundary (c : Char) : Bool := lineBoundaryCodes.contains c.toNat

/-- Python str.strip(): drop leading and trailing whitespace. -/
def pyStrip (s : String) : String :=
  String.mk (((s.data.dropWhile isPySpace).reverse.dropWhile isPySpace).reverse)

/-- Python str.rstrip(): drop trailing whitespace only.  Used by the
spec-worded variant of the flat-text handler. -/
def pyRStrip (s : String) : String :=
  String.mk ((s.data.reverse.dropWhile isPySpace).reverse)

/-- Worker for str.splitlines(): the accumulator holds the current line
reversed; a carriage return followed by a line feed counts as one
boundary; a trailing boundary does not open a final empty line. -/
def splitlinesGo : List Char → List Char → List (List Char)
  | [], acc => if acc.isEmpty then [] else [acc.reverse]
  | c :: cs, acc =>
    if isLineBoundary c then
      if c.toNat == 13 then
        match cs with
        | c2 :: cs2 =>
          if c2.toNat == 10 then acc.reverse :: splitlinesGo cs2 []
          else acc.reverse :: splitlinesGo (c2 :: cs2) []
        | [] => acc.reverse :: splitlinesGo [] []
      else acc.reverse :: splitlinesGo cs []
    else splitlinesGo cs (c :: acc)

/-- Python str.splitlines(). -/
def pySplitlines (s : String) : List String := (splitlinesGo s.data []).map String.mk

/-- The line list every handler works on:
blob_content.decode("utf-8").strip().splitlines(). -/
def pyLines (s : String) : List String := pySplitlines (pyStrip s)

/-- Whitespace json.loads skips around tokens (space, tab, newline,
carriage return only). -/
def jsonWs (c : Char) : Bool :=
  c.toNat == 32 || c.toNat == 9 || c.toNat == 10 || c.toNat == 13

/-- ASCII digit test. -/
def isDigitChar (c : Char) : Bool := decide (48 ≤ c.toNat ∧ c.toNat ≤ 57)

/-- Value of one hexadecimal digit, either case. -/
def hexVal (c : Char) : Option Nat :=
  if 48 ≤ c.toNat ∧ c.toNat ≤ 57 then some (c.toNat - 48)
  else if 97 ≤ c.toNat ∧ c.toNat ≤ 102 then some (c.toNat - 87)
  else if 65 ≤ c.toNat ∧ c.toNat ≤ 70 then some (c.toNat - 55)
  else none

/-- Four hexadecimal digits, as in a backslash-u escape. -/
def parseU4 : List Char → Option (Nat × List Char)
  | a :: b :: c :: d :: rest =>
    match hexVal a, hexVal b, hexVal c, hexVal d with
    | some x, some y, some z, some w => some (((x * 16 + y) * 16 + z) * 16 + w, rest)
    | _, _, _, _ => none
  | _ => none

/-- Body of a JSON string after the opening quote, in json.loads strict
mode: raw control characters below 0x20 are rejected, the escapes are
the eight standard ones plus backslash-u; a high surrogate followed by a
low surrogate combines into one scalar.  Returns the decoded characters
and the input remaining after the closing quote. -/
def strBody : Nat → List Char → Option (List Char × List Char)
  | 0, _ => none
  | _, [] => none
  | fuel + 1, c :: cs =>
    if c = '"' then some ([], cs)
    else if c = '\\' then
      match cs with
      | [] => none
      | e :: cs2 =>
        if e = '"' then (strBody fuel cs2).map (fun p => ('"' :: p.1, p.2))
        else if e = '\\' then (strBody fuel cs2).map (fun p => ('\\' :: p.1, p.2))
        else if e = '/' then (strBody fuel cs2).map (fun p => ('/' :: p.1, p.2))
        else if e = 'b' then (strBody fuel cs2).map (fun p => (Char.ofNat 8 :: p.1, p.2))
        else if e = 'f' then (strBody fuel cs2).map (fun p => (Char.ofNat 12 :: p.1, p.2))
        else if e = 'n' then (strBody fuel cs2).map (fun p => (Char.ofNat 10 :: p.1, p.2))
        else if e = 'r' then (strBody fuel cs2).map (fun p => (Char.ofNat 13 :: p.1, p.2))
        else if e = 't' then (strBody fuel cs2).map (fun p => (Char.ofNat 9 :: p.1, p.2))
        else if e = 'u' then
          match parseU4 cs2 with
          | none => none
          | some (n, rest) =>
            if 55296 ≤ n ∧ n ≤ 56319 then
              match rest with
              | s1 :: s2 :: rest2 =>
                if s1 = '\\' ∧ s2 = 'u' then
                  match parseU4 rest2 with
                  | some (m, rest3) =>
                    if 56320 ≤ m ∧ m ≤ 57343 then
                      (strBody fuel rest3).map (fun p =>
                        (Char.ofNat (65536 + (n - 55296) * 1024 + (m - 56320)) :: p.1, p.2))
                    else (strBody fuel rest).map (fun p => (Char.ofNat n :: p.1, p.2))
                  | none => (strBody fuel rest).map (fun p => (Char.ofNat n :: p.1, p.2))
                else (strBody fuel rest).map (fun p => (Char.ofNat n :: p.1, p.2))
              | _ => (strBody fuel rest).map (fun p => (Char.ofNat n :: p.1, p.2))
            else (strBody fuel rest).map (fun p => (Char.ofNat n :: p.1, p.2))
        else none
    else if c.toNat < 32 then none
    else (strBody fuel cs).map (fun p => (c :: p.1, p.2))

/-- Longest run of digits and the rest. -/
def takeDigits (l : List Char) : List Char × List Char :=
  (l.takeWhile isDigitChar, l.dropWhile isDigitChar)

/-- Integer part of a JSON number: a single 0, or a nonzero digit
followed by digits (json's NUMBER_RE). -/
def lexIntPart : List Char → Option (List Char × List Char)
  | [] => none
  | d :: ds =>
    if ¬ (isDigitChar d = true) then none
    else if d.toNat = 48 then some ([d], ds)
    else some (d :: (takeDigits ds).1, (takeDigits ds).2)

/-- Optional fraction part: a dot followed by at least one digit,
otherwise nothing is consumed. -/
def lexFrac (l : List Char) : List Char × List Char :=
  match l with
  | p :: ps =>
    if p.toNat == 46 then
      match takeDigits ps with
      | ([], _) => ([], l)
      | (ds, rest) => (p :: ds, rest)
    else ([], l)
  | [] => ([], l)

/-- Optional exponent part: e or E, an optional sign, at least one
digit, otherwise nothing is consumed. -/
def lexExpPart (l : List Char) : List Char × List Char :=
  match l with
  | e :: es =>
    if e.toNat == 101 || e.toNat == 69 then
      match es with
      | s :: ss =>
        if s.toNat == 43 || s.toNat == 45 then
          match takeDigits ss with
          | ([], _) => ([], l)
          | (ds, rest) => (e :: s :: ds, rest)
        else
          match takeDigits es with
          | ([], _) => ([], l)
          | (ds, rest) => (e :: ds, rest)
      | [] => ([], l)
    else ([], l)
  | [] => ([], l)

/-- Longest JSON number token starting the input, per json's NUMBER_RE:
optional minus, integer part, optional fraction, optional exponent. -/
def lexNumber (l : List Char) : Option (List Char × List Char) :=
  match l with
  | c :: cs =>
    if c.toNat == 45 then
      match lexIntPart cs with
      | none => none
      | some (ip, r1) =>
        match lexFrac r1 with
        | (fp, r2) =>
          match lexExpPart r2 with
          | (ep, r3) => some (c :: (ip ++ fp ++ ep), r3)
    else
      match lexIntPart l with
      | none => none
      | some (ip, r1) =>
        match lexFrac r1 with
        | (fp, r2) =>
          match lexExpPart r2 with
          | (ep, r3) => some (ip ++ fp ++ ep, r3)
  | [] => none

/-- Match a literal token prefix and return the rest of the input. -/
def matchLit (lit : List Char) (l : List Char) : Option (List Char) :=
  if lit.isPrefixOf l then some (l.drop lit.length) else none

mutual

/-- Models Python json.loads at the value level: skip whitespace, then
parse one JSON value, returning it and the unconsumed input.  Objects,
arrays, strings, numbers, null, true, false and the json-module
extensions NaN, Infinity and -Infinity are recognized.  Object fields
keep their textual order (no claim involves duplicate keys). -/
def parseValue : Nat → List Char → Option (JValue × List Char)
  | 0, _ => none
  | fuel + 1, l0 =>
    match l0.dropWhile jsonWs with
    | [] => none
    | c :: cs =>
      if c = openBraceChar then
        match parseFields fuel (cs.dropWhile jsonWs) with
        | some (fs, rest) => some (JValue.jobj fs, rest)
        | none => none
      else if c = '[' then
        match parseElems fuel (cs.dropWhile jsonWs) with
        | some (vs, rest) => some (JValue.jarr vs, rest)
        | none => none
      else if c = '"' then
        match strBody (cs.length + 1) cs with
        | some (body, rest) => some (JValue.jstr (String.mk body), rest)
        | none => none
      else
        ((matchLit ['n', 'u', 'l', 'l'] (c :: cs)).map (fun r => (JValue.jnull, r))) <|>
        ((matchLit ['t', 'r', 'u', 'e'] (c :: cs)).map (fun r => (JValue.jbool true, r))) <|>
        ((matchLit ['f', 'a', 'l', 's', 'e'] (c :: cs)).map (fun r => (JValue.jbool false, r))) <|>
        ((matchLit ['N', 'a', 'N'] (c :: cs)).map (fun r => (JValue.jnum "NaN", r))) <|>
        ((matchLit ['I', 'n', 'f', 'i', 'n', 'i', 't', 'y'] (c :: cs)).map
          (fun r => (JValue.jnum "Infinity", r))) <|>
        ((matchLit ['-', 'I', 'n', 'f', 'i', 'n', 'i', 't', 'y'] (c :: cs)).map
          (fun r => (JValue.jnum "-Infinity", r))) <|>
        ((lexNumber (c :: cs)).map (fun p => (JValue.jnum (String.mk p.1), p.2)))

/-- Array elements, entered right after the opening bracket with
whitespace skipped; an immediate closing bracket gives the empty array. -/
def parseElems : Nat → List Char → Option (List JValue × List Char)
  | 0, _ => none
  | fuel + 1, l =>
    match l with
    | c :: _ =>
      if c = ']' then some ([], l.tail)
      else parseElemsOne fuel l
    | [] => none

/-- One or more array elements separated by commas (no trailing comma),
closed by a bracket. -/
def parseElemsOne : Nat → List Char → Option (List JValue × List Char)
  | 0, _ => none
  | fuel + 1, l =>
    match parseValue fuel l with
    | none => none
    | some (v, rest) =>
      match rest.dropWhile jsonWs with
      | c :: cs =>
        if c = ',' then
          match parseElemsOne fuel (cs.dropWhile jsonWs) with
          | some (vs, r) => some (v :: vs, r)
          | none => none
        else if c = ']' then some ([v], cs)
        else none
      | [] => none

/-- Object fields, entered right after the opening brace with whitespace
skipped; an immediate closing brace gives the empty object. -/
def parseFields : Nat → List Char → Option (List (String × JValue) × List Char)
  | 0, _ => none
  | fuel + 1, l =>
    match l with
    | c :: _ =>
      if c = closeBraceChar then some ([], l.tail)
      else parseFieldsOne fuel l
    | [] => none

/-- One or more double-quoted-key fields separated by commas (no
trailing comma), closed by a brace. -/
def parseFieldsOne : Nat → List Char → Option (List (String × JValue) × List Char)
  | 0, _ => none
  | fuel + 1, l =>
    match l with
    | c :: cs =>
      if c = '"' then
        match strBody (cs.length + 1) cs with
        | none => none
        | some (key, rest) =>
          match rest.dropWhile jsonWs with
          | k :: ks =>
            if k = ':' then
              match parseValue fuel ks with
              | none => none
              | some (v, rest2) =>
                match rest2.dropWhile jsonWs with
                | m :: ms =>
                  if m = ',' then
                    match parseFieldsOne fuel (ms.dropWhile jsonWs) with
                    | some (fs, r) => some ((String.mk key, v) :: fs, r)
                    | none => none
                  else if m = closeBraceChar then some ([(String.mk key, v)], ms)
                  else none
                | [] => none
            else none
          | [] => none
      else none
    | [] => none

end

/-- Models Python json.loads on a whole string: one value with only
whitespace around it, anything else (including the empty string) is a
JSONDecodeError, i.e. none. -/
def loads (s : String) : Option JValue :=
  match parseValue (3 * s.data.length + 3) s.data with
  | some (v, rest) => if (rest.dropWhile jsonWs).isEmpty then some v else none
  | none => none

/-- The list comprehension [json.loads(line) for line in log_lines]
under the surrounding try: the first undecodable line aborts with none. -/
def loadsAll : List String → Option (List JValue)
  | [] => some []
  | l :: ls =>
    match loads l with
    | none => none
    | some v =>
      match loadsAll ls with
      | none => none
      | some vs => some (v :: vs)

/-- handle_ndjson (function_app.py lines 62-69): strip, split into
lines, json.loads each line; a JSONDecodeError anywhere yields none. -/
def handle_ndjson (content : String) : Option (List JValue) :=
  loadsAll (pyLines content)

/-- handle_json (lines 72-85): first the ndjson strategy; on failure
parse the whole decoded content as one document and wrap it in a
singleton list; if that also fails, none. -/
def handle_json (content : String) : Option (List JValue) :=
  match loadsAll (pyLines content) with
  | some vs => some vs
  | none =>
    match loads content with
    | some v => some [v]
    | none => none

/-- One record of handle_flat_text, with the key order of the source
dict literal. -/
def flatRecord (i : Nat) (line : String) : JValue :=
  JValue.jobj [("line_number", JValue.jnum (toString (i + 1))), ("content", JValue.jstr line)]

/-- handle_flat_text (lines 88-91): strip, split into lines, one
numbered record per line. -/
def handle_flat_text (content : String) : List JValue :=
  (pyLines content).enum.map (fun p => flatRecord p.1 p.2)

/-- Variant of the flat-text handler written from the words of claim C7
(strip only trailing whitespace before splitting), to compare with the
source's handle_flat_text which uses two-sided strip(). -/
def flatTextTrailingOnly (content : String) : List JValue :=
  (pySplitlines (pyRStrip content)).enum.map (fun p => flatRecord p.1 p.2)

/-- handle_xml (lines 94-101): the external xmltodict.parse is a
parameter; its result is wrapped in a singleton list, a parse failure
yields none. -/
def handle_xml (xmlParse : String → Option JValue) (content : String) : Option (List JValue) :=
  (xmlParse content).map (fun v => [v])

/-- Python str.endswith: the argument is a suffix of the receiver. -/
def pyEndsWith (s suffixStr : String) : Bool := suffixStr.data.isSuffixOf s.data

/-- process_blob_content (lines 40-59): dispatch on the file-name
suffix; unsupported suffixes and handler failures give none. -/
def process_blob_content (xmlParse : String → Option JValue) (content : String)
    (file_name : String) : Option (List JValue) :=
  if pyEndsWith file_name ".ndjson" then handle_ndjson content
  else if pyEndsWith file_name ".json" then handle_json content
  else if pyEndsWith file_name ".txt" then some (handle_flat_text content)
  else if pyEndsWith file_name ".xml" then handle_xml xmlParse content
  else none

/-- The loop of batch_and_send_to_observe (lines 108-127), returning
the batches handed to send_batch in call order.  State: the current
batch and the current accumulated size.  Faithfully to the source, the
flush when the next record would overflow does not test whether the
current batch is empty, and the final flush happens only for a
non-empty batch. -/
def batchLoop {α : Type} (sz : α → Nat) : List α → List α → Nat → List (List α)
  | [], batch, _ => if batch.isEmpty then [] else [batch]
  | x :: rest, batch, acc =>
    if MAX_UNCOMPRESSED_SIZE < acc + sz x then
      batch :: batchLoop sz rest [x] (sz x)
    else
      batchLoop sz rest (batch ++ [x]) (acc + sz x)

/-- The batcher run from its initial state (empty batch, zero
accumulator), generic in the per-record size measure. -/
def makeBatches {α : Type} (sz : α → Nat) (data : List α) : List (List α) :=
  batchLoop sz data [] 0

/-- batch_and_send_to_observe on the source's size measure
len(json.dumps(observation).encode("utf-8")), returning the batches
handed to send_batch in call order. -/
def batch_and_send_to_observe (data : List JValue) : List (List JValue) :=
  makeBatches recordSize data

/-- Newline-joined serialization built by send_batch at line 132. -/
def envelope (batch : List JValue) : String :=
  String.intercalate "\n" (batch.map json_dumps)

/-- One attempted HTTP POST: target URL, Authorization header value,
and the request body bytes. -/
structure PostCall where
  url : Option String
  auth : String
  body : List Nat

/-- Python f-string rendering of a value that may be None, as in
f"Bearer OBSERVE_API_TOKEN" at line 144: None prints as "None". -/
def pyShowOpt : Option String → String
  | none => "None"
  | some s => s

/-- Outcome of send_batch: either the compressed payload was over the
ceiling and delivery was aborted (the error logged at line 139), or one
POST was attempted. -/
inductive DeliveryResult where
  | compressedTooLarge : DeliveryResult
  | attempted : PostCall → DeliveryResult

/-- send_batch (lines 130-153).  gzip.compress composed with UTF-8
encoding is the external parameter gz.  If the compressed length
exceeds MAX_COMPRESSED_SIZE the function returns before any transport
call; otherwise it issues exactly one POST carrying the compressed
bytes, with the Authorization header built from the token. -/
def send_batch (gz : String → List Nat) (endpoint : Option String) (token : Option String)
    (batch : List JValue) : DeliveryResult :=
  let gzipped := gz (envelope batch)
  if MAX_COMPRESSED_SIZE < gzipped.length then DeliveryResult.compressedTooLarge
  else DeliveryResult.attempted (PostCall.mk endpoint ("Bearer " ++ pyShowOpt token) gzipped)

/-- The POST calls send_batch performs: none when the payload is over
the compressed ceiling, exactly one otherwise. -/
def send_batch_posts (gz : String → List Nat) (endpoint : Option String)
    (token : Option String) (batch : List JValue) : List PostCall :=
  match send_batch gz endpoint token batch with
  | DeliveryResult.compressedTooLarge => []
  | DeliveryResult.attempted p => [p]

/-- The POST calls one blob_trigger invocation attempts (lines 16-37
plus the helpers): environment lookup of endpoint and token with no
absence check, format dispatch, the falsiness test on the parsed data,
then one send_batch per batch. -/
def pipeline_posts (env : String → Option String) (gz : String → List Nat)
    (xmlParse : String → Option JValue) (file_name : String) (content : String) :
    List PostCall :=
  match process_blob_content xmlParse content file_name with
  | none => []
  | some [] => []
  | some (r :: rs) =>
    ((batch_and_send_to_observe (r :: rs)).map
      (send_batch_posts gz (env "OBSERVE_HTTP_ENDPOINT") (env "OBSERVE_API_TOKEN"))).flatten

/-- Python try/except Exception around a block: a raised exception is
logged and the function returns normally (function_app.py lines 24-37). -/
def pyTryExceptAll {ε : Type} (body : Except ε Unit) : Except ε Unit :=
  match body with
  | Except.ok _ => Except.ok ()
  | Except.error _ => Except.ok ()

/-- blob_trigger with its collaborators as parameters, each allowed to
raise: reading the blob, converting its content to records (the parsers),
and delivering one batch (the transport).  The result is ok when the
invocation returns normally and error when an exception escapes to the
host. -/
def blob_trigger {ε σ : Type} (readBlob : Except ε σ)
    (process : σ → Except ε (Option (List JValue)))
    (send : List JValue → Except ε Unit) : Except ε Unit :=
  pyTryExceptAll (do
    let bytes ← readBlob
    let fd ← process bytes
    match fd with
    | none => pure ()
    | some [] => pure ()
    | some (r :: rs) => (batch_and_send_to_observe (r :: rs)).forM send)

/-- Default value for list indexing into record lists. -/
instance : Inhabited JValue := ⟨JValue.jnull⟩

theorem batchLoop_join {α : Type} (sz : α → Nat) (data : List α) :
    ∀ (batch : List α) (acc : Nat), (batchLoop sz data batch acc).flatten = batch ++ data := by
  induction data with
  | nil =>
    intro batch acc
    simp only [batchLoop]
    by_cases h : batch.isEmpty
    · simp [h, List.isEmpty_iff.mp h]
    · simp [h]
  | cons x rest ih =>
    intro batch acc
    simp only [batchLoop]
    by_cases h : MAX_UNCOMPRESSED_SIZE < acc + sz x
    · simp [if_pos h, ih]
    · simp [if_neg h, ih]

theorem closeBatchGood {α : Type} (sz : α → Nat) (batch : List α)
    (hcap : 2 ≤ batch.length → (batch.map sz).sum ≤ MAX_UNCOMPRESSED_SIZE) :
    (batch.map sz).sum ≤ MAX_UNCOMPRESSED_SIZE ∨
      ∃ r, batch = [r] ∧ MAX_UNCOMPRESSED_SIZE < sz r := by
  match batch with
  | [] => left; simp
  | [r] =>
    by_cases h : MAX_UNCOMPRESSED_SIZE < sz r
    · right; exact ⟨r, rfl, h⟩
    · left; simp; omega
  | a :: b :: rest => left; exact hcap (by simp)

theorem batchLoop_sizes {α : Type} (sz : α → Nat) (data : List α) :
    ∀ (batch : List α) (acc : Nat), acc = (batch.map sz).sum →
      (2 ≤ batch.length → acc ≤ MAX_UNCOMPRESSED_SIZE) →
      ∀ b ∈ batchLoop sz data batch acc,
        (b.map sz).sum ≤ MAX_UNCOMPRESSED_SIZE ∨
          ∃ r, b = [r] ∧ MAX_UNCOMPRESSED_SIZE < sz r := by
  induction data with
  | nil =>
    intro batch acc hacc hcap b hb
    simp only [batchLoop] at hb
    by_cases h : batch.isEmpty
    · simp [h] at hb
    · simp [h] at hb
      subst hb
      exact closeBatchGood sz b (fun hl => hacc ▸ hcap hl)
  | cons x rest ih =>
    intro batch acc hacc hcap b hb
    simp only [batchLoop] at hb
    by_cases h : MAX_UNCOMPRESSED_SIZE < acc + sz x
    · rw [if_pos h] at hb
      rcases List.mem_cons.mp hb with hb1 | hb2
      · subst hb1
        exact closeBatchGood sz b (fun hl => hacc ▸ hcap hl)
      · refine ih [x] (sz x) (by simp) ?_ b hb2
        intro hlen
        simp at hlen
    · rw [if_neg h] at hb
      refine ih (batch ++ [x]) (acc + sz x) ?_ ?_ b hb
      · simp [hacc]
      · intro _
        omega

theorem batchLoop_ne_nil {α : Type} (sz : α → Nat) (data : List α) :
    ∀ (batch : List α) (acc : Nat), batch ≠ [] →
      ∀ b ∈ batchLoop sz data batch acc, b ≠ [] := by
  induction data with
  | nil =>
    intro batch acc hne b hb
    simp only [batchLoop] at hb
    rw [if_neg (by simpa [List.isEmpty_iff] using hne)] at hb
    rw [List.mem_singleton.mp hb]
    exact hne
  | cons x rest ih =>
    intro batch acc hne b hb
    simp only [batchLoop] at hb
    by_cases h : MAX_UNCOMPRESSED_SIZE < acc + sz x
    · rw [if_pos h] at hb
      rcases List.mem_cons.mp hb with hb1 | hb2
      · rw [hb1]; exact hne
      · exact ih [x] (sz x) (by simp) b hb2
    · rw [if_neg h] at hb
      exact ih (batch ++ [x]) (acc + sz x) (by simp) b hb

theorem escCharJson_a : escCharJson 'a' = ['a'] := rfl

theorem utf8Len_append (s t : String) : utf8Len (s ++ t) = utf8Len s + utf8Len t := by
  simp [utf8Len, String.data_append]

theorem escString_repA (n : Nat) :
    escStringJson (String.mk (List.replicate n 'a')) = String.mk (List.replicate n 'a') := by
  unfold escStringJson
  congr 1
  induction n with
  | zero => rfl
  | succ n ih =>
    rw [List.replicate_succ]
    simp only [List.map_cons, List.flatten_cons, ih, escCharJson_a]
    rfl

theorem utf8Len_repA (n : Nat) : utf8Len (String.mk (List.replicate n 'a')) = n := by
  induction n with
  | zero => rfl
  | succ n ih =>
    unfold utf8Len at *
    rw [List.replicate_succ]
    simp only [List.map_cons, List.sum_cons, ih]
    rw [show charUtf8Len 'a' = 1 from rfl]
    omega

theorem recordSize_repA (n : Nat) :
    recordSize (JValue.jstr (String.mk (List.replicate n 'a'))) = n + 2 := by
  show utf8Len ("\"" ++ escStringJson (String.mk (List.replicate n 'a')) ++ "\"") = n + 2
  rw [utf8Len_append, utf8Len_append, escString_repA, utf8Len_repA]
  rw [show utf8Len "\"" = 1 from rfl]
  omega

/-- A concrete record whose serialized size (4194305 bytes) exceeds the
4 MiB uncompressed ceiling. -/
def oversizedRecord : JValue := JValue.jstr (String.mk (List.replicate 4194303 'a'))

theorem batches_oversized_eval :
    batch_and_send_to_observe [oversizedRecord] = [[], [oversizedRecord]] := by
  have hs : recordSize oversizedRecord = 4194305 := recordSize_repA 4194303
  have h1 : MAX_UNCOMPRESSED_SIZE < 0 + recordSize oversizedRecord := by
    rw [hs]
    norm_num [MAX_UNCOMPRESSED_SIZE]
  unfold batch_and_send_to_observe makeBatches
  simp only [batchLoop, if_pos h1]
  rfl

theorem loadsAll_spec (ls : List String) (h : ∀ l ∈ ls, (loads l).isSome) :
    ∃ vs, loadsAll ls = some vs ∧ vs.length = ls.length ∧
      ∀ i, i < ls.length → loads (ls.getD i "") = some (vs.getD i JValue.jnull) := by
  induction ls with
  | nil => exact ⟨[], rfl, rfl, by intro i hi; simp at hi⟩
  | cons l ls ih =>
    have hl : (loads l).isSome := h l (List.mem_cons_self l ls)
    rcases Option.isSome_iff_exists.mp hl with ⟨v, hv⟩
    rcases ih (fun x hx => h x (List.mem_cons_of_mem _ hx)) with ⟨vs, h1, h2, h3⟩
    refine ⟨v :: vs, by simp [loadsAll, hv, h1], by simp [h2], ?_⟩
    intro i hi
    match i with
    | 0 => simpa [List.getD] using hv
    | i + 1 =>
      have hi2 : i < ls.length := by simp at hi; omega
      simpa [List.getD_cons_succ] using h3 i hi2

theorem loadsAll_eq_none (ls : List String) (h : ∃ l ∈ ls, loads l = none) :
    loadsAll ls = none := by
  induction ls with
  | nil => simp at h
  | cons l ls ih =>
    rcases h with ⟨x, hx, hxn⟩
    rcases List.mem_cons.mp hx with rfl | hmem
    · simp [loadsAll, hxn]
    · cases hL : loads l with
      | none => simp [loadsAll, hL]
      | some v => simp [loadsAll, hL, ih ⟨x, hmem, hxn⟩]

theorem flatFromRecords (ls : List String) : ∀ (n : Nat),
    ((List.enumFrom n ls).map (fun p => flatRecord p.1 p.2)).length = ls.length ∧
    ∀ i, i < ls.length →
      ((List.enumFrom n ls).map (fun p => flatRecord p.1 p.2)).getD i JValue.jnull =
        flatRecord (n + i) (ls.getD i "") := by
  induction ls with
  | nil => intro n; exact ⟨rfl, by intro i hi; simp at hi⟩
  | cons l ls ih =>
    intro n
    constructor
    · simp [List.enumFrom, (ih (n + 1)).1]
    · intro i hi
      match i with
      | 0 => simp [List.enumFrom]
      | i + 1 =>
        have hi2 : i < ls.length := by simp at hi; omega
        have h2 := (ih (n + 1)).2 i hi2
        simp only [List.enumFrom, List.map_cons, List.getD_cons_succ, List.getD_cons_succ, h2]
        rw [show n + 1 + i = n + (i + 1) by omega]

/-- Claim C1: the batches produced by batch_and_send_to_observe
partition the input records exactly — their concatenation in emission
order equals the input stream, so no record is lost, duplicated or
reordered — and a record whose own serialized size exceeds
MAX_UNCOMPRESSED_SIZE is still placed in a batch by itself rather than
rejected. -/
theorem C1_batcher_partitions (data : List JValue) :
    (batch_and_send_to_observe data).flatten = data ∧
    ∀ b ∈ batch_and_send_to_observe data, ∀ r ∈ b,
      MAX_UNCOMPRESSED_SIZE < recordSize r → b = [r] := by
  constructor
  · have h := batchLoop_join recordSize data [] 0
    simpa using h
  · intro b hb r hr hover
    have hb2 : b ∈ batchLoop recordSize data [] 0 := hb
    rcases batchLoop_sizes recordSize data [] 0 (by simp) (by intro h2; simp at h2) b hb2
      with hle | ⟨r2, hb3, _⟩
    · exfalso
      have hmem : recordSize r ∈ b.map recordSize := List.mem_map_of_mem recordSize hr
      have hle2 := List.single_le_sum (fun x _ => Nat.zero_le x) _ hmem
      omega
    · subst hb3
      have hr2 := List.mem_singleton.mp hr
      subst hr2
      rfl

/-- Witness for C1 at a one-record stream whose record is oversized. -/
theorem C1_batcher_partitions_witness :
    (batch_and_send_to_observe [oversizedRecord]).flatten = [oversizedRecord] ∧
    [oversizedRecord] = [oversizedRecord] := by
  refine ⟨(C1_batcher_partitions [oversizedRecord]).1, ?_⟩
  refine (C1_batcher_partitions [oversizedRecord]).2 [oversizedRecord] ?_ oversizedRecord ?_ ?_
  · rw [batches_oversized_eval]
    exact List.mem_cons_of_mem _ (List.mem_singleton.mpr rfl)
  · exact List.mem_singleton.mpr rfl
  · have hs : recordSize oversizedRecord = 4194305 := recordSize_repA 4194303
    rw [hs]
    norm_num [MAX_UNCOMPRESSED_SIZE]

/-- Claim C2: every batch handed to send_batch has summed serialized
record sizes at most MAX_UNCOMPRESSED_SIZE, except a singleton batch
holding one record that alone exceeds the ceiling. -/
theorem C2_batch_size_ceiling (data : List JValue) (b : List JValue)
    (hb : b ∈ batch_and_send_to_observe data) :
    (b.map recordSize).sum ≤ MAX_UNCOMPRESSED_SIZE ∨
      ∃ r, b = [r] ∧ MAX_UNCOMPRESSED_SIZE < recordSize r := by
  have hb2 : b ∈ batchLoop recordSize data [] 0 := hb
  exact batchLoop_sizes recordSize data [] 0 (by simp) (by intro h2; simp at h2) b hb2

/-- Witness for C2 at a concrete one-record stream. -/
theorem C2_batch_size_ceiling_witness :
    ([JValue.jnum "1"].map recordSize).sum ≤ MAX_UNCOMPRESSED_SIZE ∨
      ∃ r, [JValue.jnum "1"] = [r] ∧ MAX_UNCOMPRESSED_SIZE < recordSize r := by
  refine C2_batch_size_ceiling [JValue.jnum "1"] [JValue.jnum "1"] ?_
  rw [show batch_and_send_to_observe [JValue.jnum "1"] = [[JValue.jnum "1"]] from rfl]
  exact List.mem_singleton.mpr rfl

/-- Counterexample to claim C3 as stated: the flush at line 115 of the
source does not test whether the current batch is empty, so when the
very first record of the stream is oversized (here a 4194303-character
string whose serialization is 4194305 bytes) the empty batch is handed
to send_batch. -/
theorem C3_counterexample_empty_batch :
    [] ∈ batch_and_send_to_observe [oversizedRecord] := by
  rw [batches_oversized_eval]
  exact List.mem_cons_self _ _

/-- Claim C3 (amended): every batch after the first handed to
send_batch is non-empty, and an empty batch is handed over exactly when
the input stream is non-empty and its first record alone exceeds
MAX_UNCOMPRESSED_SIZE — in that one case the flush emits the empty
initial batch. -/
theorem C3_flush_nonempty_amended {α : Type} (sz : α → Nat) (data : List α) :
    (∀ b ∈ (makeBatches sz data).tail, b ≠ []) ∧
    ([] ∈ makeBatches sz data ↔ ∃ x l, data = x :: l ∧ MAX_UNCOMPRESSED_SIZE < sz x) := by
  match data with
  | [] =>
    constructor
    · intro b hb
      simp [makeBatches, batchLoop] at hb
    · simp [makeBatches, batchLoop]
  | x :: rest =>
    by_cases h : MAX_UNCOMPRESSED_SIZE < 0 + sz x
    · have heval : makeBatches sz (x :: rest) = [] :: batchLoop sz rest [x] (sz x) := by
        unfold makeBatches
        simp only [batchLoop, if_pos h]
      rw [heval]
      constructor
      · intro b hb
        simp only [List.tail_cons] at hb
        exact batchLoop_ne_nil sz rest [x] (sz x) (by simp) b hb
      · constructor
        · intro _
          exact ⟨x, rest, rfl, by omega⟩
        · intro _
          exact List.mem_cons_self _ _
    · have heval : makeBatches sz (x :: rest) = batchLoop sz rest [x] (sz x) := by
        unfold makeBatches
        simp only [batchLoop, if_neg h]
        simp
      rw [heval]
      have hall : ∀ b ∈ batchLoop sz rest [x] (sz x), b ≠ [] :=
        batchLoop_ne_nil sz rest [x] (sz x) (by simp)
      constructor
      · intro b hb
        exact hall b (List.mem_of_mem_tail hb)
      · constructor
        · intro hmem
          exact absurd rfl (hall [] hmem)
        · rintro ⟨x2, l2, heq, hgt⟩
          injection heq with h1 h2
          subst h1
          omega

/-- Witness for C3's amended statement at a concrete oversized-first
stream. -/
theorem C3_flush_nonempty_amended_witness :
    ([(0 : Nat)] ≠ ([] : List Nat)) ∧
    ∃ x l, [(0 : Nat)] = x :: l ∧ MAX_UNCOMPRESSED_SIZE < (fun _ : Nat => 4194305) x := by
  constructor
  · exact (C3_flush_nonempty_amended (fun _ : Nat => 4194305) [0]).1 [0] (by decide)
  · exact ((C3_flush_nonempty_amended (fun _ : Nat => 4194305) [0]).2).mp (by decide)

/-- Claim C4: if the gzip-compressed envelope of a batch exceeds
MAX_COMPRESSED_SIZE, send_batch aborts with the compressed-too-large
outcome and performs no POST; otherwise it performs exactly one POST
whose body is the compressed bytes. -/
theorem C4_compressed_ceiling (gz : String → List Nat) (endpoint token : Option String)
    (batch : List JValue) :
    (MAX_COMPRESSED_SIZE < (gz (envelope batch)).length →
      send_batch gz endpoint token batch = DeliveryResult.compressedTooLarge ∧
      send_batch_posts gz endpoint token batch = []) ∧
    ((gz (envelope batch)).length ≤ MAX_COMPRESSED_SIZE →
      send_batch_posts gz endpoint token batch =
        [PostCall.mk endpoint ("Bearer " ++ pyShowOpt token) (gz (envelope batch))]) := by
  constructor
  · intro h
    constructor
    · simp [send_batch, if_pos h]
    · simp [send_batch_posts, send_batch, if_pos h]
  · intro h
    have h2 : ¬ MAX_COMPRESSED_SIZE < (gz (envelope batch)).length := by omega
    simp [send_batch_posts, send_batch, if_neg h2]

/-- Witness for C4: one compressor over the ceiling, one under it. -/
theorem C4_compressed_ceiling_witness :
    (send_batch (fun _ => List.replicate 10485761 0) none none [] =
        DeliveryResult.compressedTooLarge ∧
      send_batch_posts (fun _ => List.replicate 10485761 0) none none [] = []) ∧
    send_batch_posts (fun _ => []) none none [] =
      [PostCall.mk none ("Bearer " ++ pyShowOpt none) []] := by
  constructor
  · refine (C4_compressed_ceiling (fun _ => List.replicate 10485761 0) none none []).1 ?_
    rw [List.length_replicate]
    norm_num [MAX_COMPRESSED_SIZE]
  · exact (C4_compressed_ceiling (fun _ => []) none none []).2 (by simp)

/-- Counterexample to claim C5 as stated: in the stream "1", "", "2"
(the file content has an interior blank line) every non-empty line is
valid standalone JSON, yet handle_ndjson fails with none, because the
source passes every line — including the empty one — to json.loads and
an empty string is a JSONDecodeError. -/
theorem C5_counterexample_blank_line :
    (∀ l ∈ pyLines "1\n\n2", l ≠ "" → (loads l).isSome) ∧
    handle_ndjson "1\n\n2" = none := by
  constructor
  · intro l hl hne
    rw [show pyLines "1\n\n2" = ["1", "", "2"] from rfl] at hl
    simp only [List.mem_cons, List.not_mem_nil, or_false] at hl
    rcases hl with rfl | rfl | rfl
    · rfl
    · exact absurd rfl hne
    · rfl
  · rfl

/-- Claim C5 (amended): if every line of the stripped content —
interior blank lines included, none are skipped — is valid standalone
JSON, then handle_ndjson succeeds and yields exactly one record per
line, equal to that line's parsed value, in line order. -/
theorem C5_ndjson_roundtrip_amended (content : String)
    (h : ∀ l ∈ pyLines content, (loads l).isSome) :
    ∃ recs, handle_ndjson content = some recs ∧
      recs.length = (pyLines content).length ∧
      ∀ i, i < (pyLines content).length →
        loads ((pyLines content).getD i "") = some (recs.getD i JValue.jnull) := by
  rcases loadsAll_spec (pyLines content) h with ⟨vs, h1, h2, h3⟩
  exact ⟨vs, by simp [handle_ndjson, h1], h2, h3⟩

/-- Witness for C5's amended statement at a two-line file. -/
theorem C5_ndjson_roundtrip_amended_witness :
    (∀ l ∈ pyLines "1\n2", (loads l).isSome) ∧
    ∃ recs, handle_ndjson "1\n2" = some recs ∧
      recs.length = (pyLines "1\n2").length ∧
      ∀ i, i < (pyLines "1\n2").length →
        loads ((pyLines "1\n2").getD i "") = some (recs.getD i JValue.jnull) := by
  have h : ∀ l ∈ pyLines "1\n2", (loads l).isSome := by
    intro l hl
    rw [show pyLines "1\n2" = ["1", "2"] from rfl] at hl
    simp only [List.mem_cons, List.not_mem_nil, or_false] at hl
    rcases hl with rfl | rfl
    · rfl
    · rfl
  exact ⟨h, C5_ndjson_roundtrip_amended "1\n2" h⟩

/-- Claim C6: handle_json falls back to whole-document parsing exactly
when some line fails to parse as standalone JSON; when all lines parse
the result is the line-by-line record stream, and in the fallback case
the result is the singleton stream of the whole parsed document, or
none when that also fails. -/
theorem C6_json_fallback (content : String) :
    ((∀ l ∈ pyLines content, (loads l).isSome) →
      ∃ vs, loadsAll (pyLines content) = some vs ∧ handle_json content = some vs) ∧
    ((∃ l ∈ pyLines content, loads l = none) →
      handle_json content = (loads content).map (fun v => [v])) := by
  constructor
  · intro h
    rcases loadsAll_spec (pyLines content) h with ⟨vs, h1, _, _⟩
    exact ⟨vs, h1, by simp [handle_json, h1]⟩
  · intro h
    have hn := loadsAll_eq_none (pyLines content) h
    unfold handle_json
    rw [hn]
    cases loads content <;> rfl

/-- The multi-line single-object file of C6's example. -/
def jsonObjFile : String := "\x7b\n\"a\": 1\n\x7d"

/-- Witness for C6: a file holding one multi-line JSON object is not
line-parseable, falls back, and yields the one-element stream of that
object. -/
theorem C6_json_fallback_witness :
    handle_json jsonObjFile = (loads jsonObjFile).map (fun v => [v]) ∧
    handle_json jsonObjFile = some [JValue.jobj [("a", JValue.jnum "1")]] := by
  constructor
  · refine (C6_json_fallback jsonObjFile).2 ?_
    refine ⟨"\x7b", ?_, rfl⟩
    rw [show pyLines jsonObjFile = ["\x7b", "\"a\": 1", "\x7d"] from rfl]
    exact List.mem_cons_self _ _
  · rfl

/-- Counterexample to claim C7 as stated: the source strips leading
whitespace too (str.strip, not rstrip), so for content "\na" the claim
predicts two records — a blank line 1 and "a" as line 2 — but
handle_flat_text drops the leading blank line and yields a single
record numbering "a" as line 1. -/
theorem C7_counterexample_leading_blank :
    flatTextTrailingOnly "\na" = [flatRecord 0 "", flatRecord 1 "a"] ∧
    handle_flat_text "\na" = [flatRecord 0 "a"] ∧
    handle_flat_text "\na" ≠ flatTextTrailingOnly "\na" := by
  refine ⟨rfl, rfl, ?_⟩
  intro h
  exact absurd (congrArg List.length h)
    (by decide :
      ¬ (handle_flat_text "\na").length = (flatTextTrailingOnly "\na").length)

/-- Claim C7 (amended): handle_flat_text strips leading and trailing
whitespace (so leading blank lines are removed, not preserved), splits
the stripped text into lines, and yields for the i-th remaining line,
1-based, the record with that line number and the line's text; it is
total on decoded input, and an empty file yields the empty stream. -/
theorem C7_flat_text_amended (content : String) :
    ((handle_flat_text content).length = (pyLines content).length ∧
      ∀ i, i < (pyLines content).length →
        (handle_flat_text content).getD i JValue.jnull =
          JValue.jobj [("line_number", JValue.jnum (toString (i + 1))),
                       ("content", JValue.jstr ((pyLines content).getD i ""))]) ∧
    handle_flat_text "" = [] := by
  refine ⟨⟨(flatFromRecords (pyLines content) 0).1, ?_⟩, rfl⟩
  intro i hi
  have h := (flatFromRecords (pyLines content) 0).2 i hi
  rw [Nat.zero_add] at h
  exact h

/-- Witness for C7's amended statement at the spec's two-line example. -/
theorem C7_flat_text_amended_witness :
    (handle_flat_text "a\nb").getD 0 JValue.jnull =
      JValue.jobj [("line_number", JValue.jnum (toString (0 + 1))),
                   ("content", JValue.jstr ((pyLines "a\nb").getD 0 ""))] :=
  (C7_flat_text_amended "a\nb").1.2 0 (by decide)

/-- Claim C8: whatever the blob read, the parsers or the per-batch
transport do — including raising exceptions — blob_trigger returns
normally; the try/except Exception at lines 24-37 converts every raised
error into a logged event. -/
theorem C8_no_exception_escapes {ε σ : Type} (readBlob : Except ε σ)
    (process : σ → Except ε (Option (List JValue)))
    (send : List JValue → Except ε Unit) :
    blob_trigger readBlob process send = Except.ok () := by
  unfold blob_trigger pyTryExceptAll
  split <;> rfl

/-- Claim C9, evidence of the code bug: with both environment variables
absent, the pipeline still parses the blob, batches it, and reaches the
transport with an Authorization header literally reading "Bearer None"
and no endpoint, instead of stopping on the missing configuration. -/
theorem C9_missing_config_reaches_post :
    pipeline_posts (fun _ => none) (fun _ => [0]) (fun _ => none) "a.ndjson"
      "\x7b\"x\": 1\x7d" = [PostCall.mk none "Bearer None" [0]] := rfl

/-- Claim C10: an interior blank line of a .txt file (surviving the
outer strip) is not skipped: it yields the record with its 1-based line
number and empty content, and it consumes a position in the numbering. -/
theorem C10_interior_blank_lines (content : String) (i : Nat)
    (hi : i < (pyLines content).length) (hblank : (pyLines content).getD i "" = "") :
    (handle_flat_text content).length = (pyLines content).length ∧
    (handle_flat_text content).getD i JValue.jnull =
      JValue.jobj [("line_number", JValue.jnum (toString (i + 1))),
                   ("content", JValue.jstr "")] := by
  refine ⟨(flatFromRecords (pyLines content) 0).1, ?_⟩
  have h := (flatFromRecords (pyLines content) 0).2 i hi
  rw [Nat.zero_add, hblank] at h
  exact h

/-- Witness for C10 at the file "a", blank, "b". -/
theorem C10_interior_blank_lines_witness :
    (handle_flat_text "a\n\nb").length = (pyLines "a\n\nb").length ∧
    (handle_flat_text "a\n\nb").getD 1 JValue.jnull =
      JValue.jobj [("line_number", JValue.jnum (toString (1 + 1))),
                   ("content", JValue.jstr "")] :=
  C10_interior_blank_lines "a\n\nb" 1 (by decide) (by decide)
